import Mathlib

/-!
Verification of the `fish` command-line pager (Go sources `main.go`, `reader.go`).

The development shallowly embeds the pager's view-state machine, the scroll
ticker, the keyboard decoder and the progress store.  Go `int` values are
modelled as `Int` (the quantities involved — line counts, window heights —
stay far below any machine-integer bound, so wraparound is not modelled).
-/

/-- The mutable view state of `Reader` (`reader.go`): the fields read or
written by the command loop `Reader.Run`, the ticker `Reader.daemonScrolling`
and `Reader.setBreakMark`.  `totalLine` is fixed after `createIndex`;
`winHeight` changes only on terminal resize, which is outside the command
loop, so it is carried as plain state here. -/
structure ReaderState where
  currentLine : Int
  totalLine : Int
  winHeight : Int
  scrollingLine : Int
  jumpBreakMark : Int
  displayBreakMark : Bool
deriving Repr, DecidableEq

/-- The command bytes `CmdExit .. CmdNULL` of `reader.go`. -/
inductive Cmd where
  | exit
  | nextPage
  | prevPage
  | nextLine
  | prevLine
  | nextHalfPage
  | switchScrolling
  | null
deriving Repr, DecidableEq

/-- The page-jump offset `int(math.Round(float64(r.winHeight) * r.pageFactor))`
with `pageFactor = 0.75` (set in `NewReader`).  For `0 ≤ w` (terminal heights
are non-negative and far below 2^51) the float computation is exact —
`0.75 = 3/4` is a binary dyadic — and `math.Round` (half away from zero)
agrees with rounding half up, so the value is `⌊(3w + 2) / 4⌋`. -/
def pageOff (w : Int) : Int :=
  (3 * w + 2) / 4

/-- `Reader.setBreakMark` (`reader.go`). -/
def setBreakMark (s : ReaderState) : ReaderState :=
  { s with jumpBreakMark := s.currentLine + s.winHeight - 1, displayBreakMark := true }

/-- One iteration of the `switch <-r.eventSignal` dispatch in `Reader.Run`
(`reader.go`).  `CmdExit` returns from the loop without touching the state,
so it is the identity here; `CmdNULL` is a no-op by the source comment. -/
def step (c : Cmd) (s : ReaderState) : ReaderState :=
  match c with
  | .null => s
  | .exit => s
  | .switchScrolling =>
      if s.scrollingLine = 2 then { s with scrollingLine := 0 }
      else { s with scrollingLine := s.scrollingLine + 1 }
  | .nextPage =>
      let s := setBreakMark s
      let off := pageOff s.winHeight
      if s.currentLine + off < s.totalLine then { s with currentLine := s.currentLine + off }
      else s
  | .prevPage =>
      let s := setBreakMark s
      let off := pageOff s.winHeight
      if s.currentLine - off ≥ 0 then { s with currentLine := s.currentLine - off }
      else { s with currentLine := 0 }
  | .nextLine =>
      if s.currentLine < s.totalLine - 1 then { s with currentLine := s.currentLine + 1 }
      else s
  | .prevLine =>
      if s.currentLine > 0 then { s with currentLine := s.currentLine - 1 }
      else s
  | .nextHalfPage =>
      let s := setBreakMark s
      let off := s.winHeight / 2
      if s.currentLine + s.winHeight - 1 < s.totalLine then
        { s with currentLine := s.currentLine + off }
      else s

/-- One firing of the ticker case in `Reader.daemonScrolling` (`reader.go`):
when `scrollingLine > 0` the guarded advance runs and `CmdNULL` is sent on
`eventSignal` (which makes the command loop request a render); when scrolling
is off nothing happens and nothing is sent.  The boolean records whether
`CmdNULL` was sent. -/
def scrollTick (s : ReaderState) : ReaderState × Bool :=
  if s.scrollingLine > 0 then
    (if s.currentLine < s.totalLine - 1 then
      { s with currentLine := s.currentLine + s.scrollingLine }
     else s, true)
  else (s, false)

/-- An event reaching the coordinator state: a command from the keyboard, or
one ticker firing. -/
inductive Ev where
  | cmd (c : Cmd)
  | tick
deriving Repr, DecidableEq

/-- Effect of one event on the view state. -/
def evStep (s : ReaderState) (e : Ev) : ReaderState :=
  match e with
  | .cmd c => step c s
  | .tick => (scrollTick s).1

/-- Run a sequence of events. -/
def evRun (s : ReaderState) (evs : List Ev) : ReaderState :=
  evs.foldl evStep s

/-- The byte-decoding table of `Reader.daemonCatchInput` (`reader.go`),
applied to one 3-byte read buffer.  `none` is every `continue` / fall-through
path: the loop reads again without sending a command. -/
def decode (b0 b1 b2 : Nat) : Option Cmd :=
  if b0 = 0x03 ∨ b0 = 0x04 ∨ b0 = 113 then some .exit
  else if b0 = 97 then some .switchScrolling
  else if b0 = 0x0d then some .nextLine
  else if b0 = 32 then some .nextHalfPage
  else if b0 = 0x1b then
    if b1 ≠ 0x5b then none
    else if b2 = 0x41 then some .prevLine
    else if b2 = 0x42 then some .nextLine
    else if b2 = 0x43 then some .nextPage
    else if b2 = 0x44 then some .prevPage
    else none
  else none

/-- One pass of the read loop in `Reader.daemonCatchInput`: a failed
`os.Stdin.Read` hits `continue`, so no command is produced and the loop
retries the read; a successful read is decoded by the byte table. -/
def readEvent (r : Except String (Nat × Nat × Nat)) : Option Cmd :=
  match r with
  | .error _ => none
  | .ok (b0, b1, b2) => decode b0 b1 b2

/-- The on-disk progress file, abstracting the raw bytes: `valid l` is a JSON
object decoding to the entry list `l` (absolute path ↦ line offset), and
`invalid` is any contents `json.Unmarshal` rejects. -/
inductive JsonFile where
  | valid (entries : List (String × Int))
  | invalid
deriving Repr, DecidableEq

/-- `json.Unmarshal` on the progress file: succeeds exactly on valid JSON. -/
def unmarshal (d : JsonFile) : Except String (List (String × Int)) :=
  match d with
  | .valid l => .ok l
  | .invalid => .error "invalid character"

/-- Lookup in the progress record (`r.progress[path]`, a Go map read). -/
def lookupPath (l : List (String × Int)) (p : String) : Option Int :=
  match l with
  | [] => none
  | kv :: rest => if kv.1 = p then some kv.2 else lookupPath rest p

/-- Go map assignment `r.progress[path] = v`: replace the entry if the key is
present, otherwise add it. -/
def setPath (l : List (String × Int)) (p : String) (v : Int) : List (String × Int) :=
  match l with
  | [] => [(p, v)]
  | kv :: rest => if kv.1 = p then (p, v) :: rest else kv :: setPath rest p v

/-- The reader substate touched by `Reader.saveProgress`: the file path `f`,
the dedup marker `previousSavedLine`, the offset `currentLine`, the in-memory
record `progress` and the on-disk progress file (`progressFD`). -/
structure SaveState where
  f : String
  previousSavedLine : Int
  currentLine : Int
  progress : List (String × Int)
  disk : Option JsonFile
deriving Repr, DecidableEq

/-- `Reader.saveProgress` (`reader.go`): returns immediately when the offset
equals the last saved one; otherwise updates `previousSavedLine` and the
record, marshals the whole record and truncates/rewrites the file. -/
def saveProgress (st : SaveState) : SaveState :=
  if st.previousSavedLine = st.currentLine then st
  else
    let mem := setPath st.progress st.f st.currentLine
    { st with
        previousSavedLine := st.currentLine
        progress := mem
        disk := some (.valid mem) }

/-- The outcome of `Reader.loadProgress`: the (possibly just created) disk
file, the decoded record, and the reader's `currentLine` /
`previousSavedLine` after the lookup of its own path. -/
structure LoadResult where
  disk : Option JsonFile
  progress : List (String × Int)
  currentLine : Int
  previousSavedLine : Int
deriving Repr, DecidableEq

/-- `Reader.loadProgress` (`reader.go`): if the progress file does not exist
it is created holding `{}`; the file is then read and unmarshalled — an
unmarshal error is returned as-is and nothing is written; on success the
reader's offset is set from the record when its path has an entry, else left
unchanged. -/
def loadProgress (f : String) (cur prev : Int) (disk : Option JsonFile) :
    Except String LoadResult :=
  let d := disk.getD (.valid [])
  match unmarshal d with
  | .error e => .error e
  | .ok pp =>
      match lookupPath pp f with
      | some pos => .ok ⟨some d, pp, pos, pos⟩
      | none => .ok ⟨some d, pp, cur, prev⟩

/-- The startup sequence of `Reader.Run` around progress (`reader.go`): a
`loadProgress` error is returned from `Run` (terminating the whole run,
`main` then exits); on success the loaded offset is zeroed only when
`currentLine > totalLine`. -/
def runInit (f : String) (totalLine : Int) (disk : Option JsonFile) :
    Except String LoadResult :=
  match loadProgress f 0 0 disk with
  | .error e => .error e
  | .ok r =>
      .ok { r with currentLine := if r.currentLine > totalLine then 0 else r.currentLine }

/-- The inductive invariant used for the navigation-safety proof: the offset
stays in `[0, totalLine]` and the scroll mode stays in `{0, 1, 2}` (its
reachable set: it starts at 0 and `CmdSwitchScrolling` cycles it). -/
def GoodState (s : ReaderState) : Prop :=
  0 ≤ s.currentLine ∧ s.currentLine ≤ s.totalLine ∧
    0 ≤ s.winHeight ∧ 0 ≤ s.scrollingLine ∧ s.scrollingLine ≤ 2

instance : DecidablePred GoodState := fun s => by
  unfold GoodState; infer_instance

/-- Commands never change the line count of the loaded document. -/
@[simp]
theorem step_totalLine (c : Cmd) (s : ReaderState) : (step c s).totalLine = s.totalLine := by
  cases c <;> simp only [step, setBreakMark] <;> split_ifs <;> rfl

/-- Commands never change the recorded window height. -/
@[simp]
theorem step_winHeight (c : Cmd) (s : ReaderState) : (step c s).winHeight = s.winHeight := by
  cases c <;> simp only [step, setBreakMark] <;> split_ifs <;> rfl

/-- Equation for the offset after `CmdNextPage`. -/
theorem step_nextPage_currentLine (s : ReaderState) :
    (step .nextPage s).currentLine =
      if s.currentLine + pageOff s.winHeight < s.totalLine then
        s.currentLine + pageOff s.winHeight
      else s.currentLine := by
  simp only [step, setBreakMark]; split_ifs <;> rfl

/-- Equation for the offset after `CmdPrevPage`. -/
theorem step_prevPage_currentLine (s : ReaderState) :
    (step .prevPage s).currentLine =
      if s.currentLine - pageOff s.winHeight ≥ 0 then s.currentLine - pageOff s.winHeight
      else 0 := by
  simp only [step, setBreakMark]; split_ifs <;> rfl

/-- Equation for the offset after `CmdNextHalfPage`. -/
theorem step_nextHalfPage_currentLine (s : ReaderState) :
    (step .nextHalfPage s).currentLine =
      if s.currentLine + s.winHeight - 1 < s.totalLine then s.currentLine + s.winHeight / 2
      else s.currentLine := by
  simp only [step, setBreakMark]; split_ifs <;> rfl

/-- Preservation of the inductive invariant by a single event. -/
theorem goodState_evStep (s : ReaderState) (e : Ev) (h : GoodState s) :
    GoodState (evStep s e) ∧ (evStep s e).totalLine = s.totalLine := by
  obtain ⟨h0, h1, hw, hs0, hs2⟩ := h
  have hpo : 0 ≤ pageOff s.winHeight := by unfold pageOff; omega
  cases e with
  | tick =>
      simp only [evStep, scrollTick, GoodState, and_true]
      split_ifs <;> dsimp only <;> omega
  | cmd c =>
      cases c <;>
        simp only [evStep, step, setBreakMark, GoodState, and_true] <;>
        (try split_ifs) <;> (try dsimp only) <;> omega

/-- Preservation of the inductive invariant by an event sequence. -/
theorem goodState_evRun (s : ReaderState) (evs : List Ev) (h : GoodState s) :
    GoodState (evRun s evs) ∧ (evRun s evs).totalLine = s.totalLine := by
  induction evs generalizing s with
  | nil => exact ⟨h, rfl⟩
  | cons e rest ih =>
      have h1 := goodState_evStep s e h
      have h2 := ih (evStep s e) h1.1
      simp only [evRun, List.foldl] at h2 ⊢
      exact ⟨h2.1, h2.2.trans h1.2⟩

/-- C1, counterexample: from `currentLine = 1`, `totalLine = 3` (invariant
holds) with scroll mode 2, one ticker firing advances by 2 and lands on
`currentLine = totalLine = 3`, violating `currentLine < totalLines`. -/
theorem tick_step2_exceeds_lastLine :
    (0 ≤ (⟨1, 3, 40, 2, 0, false⟩ : ReaderState).currentLine ∧
        (⟨1, 3, 40, 2, 0, false⟩ : ReaderState).currentLine <
          (⟨1, 3, 40, 2, 0, false⟩ : ReaderState).totalLine) ∧
      (evRun ⟨1, 3, 40, 2, 0, false⟩ [Ev.tick]).currentLine =
        (evRun ⟨1, 3, 40, 2, 0, false⟩ [Ev.tick]).totalLine ∧
      ¬ (evRun ⟨1, 3, 40, 2, 0, false⟩ [Ev.tick]).currentLine <
          (evRun ⟨1, 3, 40, 2, 0, false⟩ [Ev.tick]).totalLine := by
  decide

/-- C1, amended: for every sequence of Commands and ticker firings starting
from `0 ≤ currentLine < totalLines` (with a non-negative window height and
the scroll mode in its reachable set `{0, 1, 2}`), the weakened invariant
`0 ≤ currentLine ≤ totalLines` holds after every event; the strict bound
`currentLine < totalLines` can fail only by a mode-2 tick landing exactly on
`totalLines`. -/
theorem nav_sequence_invariant_le (s : ReaderState) (evs : List Ev)
    (h0 : 0 ≤ s.currentLine) (h1 : s.currentLine < s.totalLine)
    (hw : 0 ≤ s.winHeight) (hs0 : 0 ≤ s.scrollingLine) (hs2 : s.scrollingLine ≤ 2) :
    0 ≤ (evRun s evs).currentLine ∧
      (evRun s evs).currentLine ≤ (evRun s evs).totalLine ∧
      (evRun s evs).totalLine = s.totalLine := by
  have h := goodState_evRun s evs ⟨h0, le_of_lt h1, hw, hs0, hs2⟩
  exact ⟨h.1.1, h.1.2.1, h.2⟩

/-- C1, witness for `nav_sequence_invariant_le` at a concrete start state and
event sequence. -/
theorem nav_sequence_invariant_le_witness :
    0 ≤ (evRun ⟨0, 10, 5, 0, 0, false⟩
          [Ev.cmd .nextPage, Ev.tick, Ev.cmd .switchScrolling, Ev.tick,
            Ev.cmd .nextHalfPage, Ev.cmd .prevLine]).currentLine ∧
      (evRun ⟨0, 10, 5, 0, 0, false⟩
          [Ev.cmd .nextPage, Ev.tick, Ev.cmd .switchScrolling, Ev.tick,
            Ev.cmd .nextHalfPage, Ev.cmd .prevLine]).currentLine ≤
        (evRun ⟨0, 10, 5, 0, 0, false⟩
          [Ev.cmd .nextPage, Ev.tick, Ev.cmd .switchScrolling, Ev.tick,
            Ev.cmd .nextHalfPage, Ev.cmd .prevLine]).totalLine ∧
      (evRun ⟨0, 10, 5, 0, 0, false⟩
          [Ev.cmd .nextPage, Ev.tick, Ev.cmd .switchScrolling, Ev.tick,
            Ev.cmd .nextHalfPage, Ev.cmd .prevLine]).totalLine =
        (⟨0, 10, 5, 0, 0, false⟩ : ReaderState).totalLine :=
  nav_sequence_invariant_le ⟨0, 10, 5, 0, 0, false⟩
    [Ev.cmd .nextPage, Ev.tick, Ev.cmd .switchScrolling, Ev.tick,
      Ev.cmd .nextHalfPage, Ev.cmd .prevLine]
    (by decide) (by decide) (by decide) (by decide) (by decide)

/-- C2, counterexample: with scroll mode 1 and `currentLine = totalLine - 1`
(the last line), the ticker performs no advance but still sends `CmdNULL`,
i.e. it does issue a render request, contrary to the claim. -/
theorem tick_render_at_lastLine :
    (⟨4, 5, 40, 1, 0, false⟩ : ReaderState).currentLine =
        (⟨4, 5, 40, 1, 0, false⟩ : ReaderState).totalLine - 1 ∧
      0 < (⟨4, 5, 40, 1, 0, false⟩ : ReaderState).scrollingLine ∧
      (scrollTick ⟨4, 5, 40, 1, 0, false⟩).1 = ⟨4, 5, 40, 1, 0, false⟩ ∧
      (scrollTick ⟨4, 5, 40, 1, 0, false⟩).2 = true := by
  decide

/-- C2, amended: on each tick the ticker advances `currentLine` by exactly
the scroll step if and only if `scrollingLine` is non-zero and
`currentLine < totalLines - 1`, leaving the state untouched otherwise; a
render request (`CmdNULL`) is issued exactly when `scrollingLine` is
non-zero — including when already at the last line — and only a switched-off
scroll mode issues nothing. -/
theorem scrollTick_advance_render (s : ReaderState) :
    (0 < s.scrollingLine ∧ s.currentLine < s.totalLine - 1 →
      (scrollTick s).1.currentLine = s.currentLine + s.scrollingLine) ∧
    (¬ (0 < s.scrollingLine ∧ s.currentLine < s.totalLine - 1) →
      (scrollTick s).1 = s) ∧
    ((scrollTick s).2 = true ↔ 0 < s.scrollingLine) := by
  unfold scrollTick
  split_ifs with h1 h2 <;> refine ⟨?_, ?_, ?_⟩ <;> simp_all

/-- C2, witness for `scrollTick_advance_render` at a state with scrolling on
and room to advance. -/
theorem scrollTick_advance_render_witness :
    (0 < (⟨3, 9, 40, 2, 0, false⟩ : ReaderState).scrollingLine ∧
        (⟨3, 9, 40, 2, 0, false⟩ : ReaderState).currentLine <
          (⟨3, 9, 40, 2, 0, false⟩ : ReaderState).totalLine - 1 →
      (scrollTick ⟨3, 9, 40, 2, 0, false⟩).1.currentLine =
        (⟨3, 9, 40, 2, 0, false⟩ : ReaderState).currentLine +
          (⟨3, 9, 40, 2, 0, false⟩ : ReaderState).scrollingLine) ∧
    (¬ (0 < (⟨3, 9, 40, 2, 0, false⟩ : ReaderState).scrollingLine ∧
        (⟨3, 9, 40, 2, 0, false⟩ : ReaderState).currentLine <
          (⟨3, 9, 40, 2, 0, false⟩ : ReaderState).totalLine - 1) →
      (scrollTick ⟨3, 9, 40, 2, 0, false⟩).1 = ⟨3, 9, 40, 2, 0, false⟩) ∧
    ((scrollTick ⟨3, 9, 40, 2, 0, false⟩).2 = true ↔
      0 < (⟨3, 9, 40, 2, 0, false⟩ : ReaderState).scrollingLine) :=
  scrollTick_advance_render ⟨3, 9, 40, 2, 0, false⟩

/-- C3, counterexample: at `currentLine = 80` on a 100-line file with
`winHeight = 40`, the page offset is exactly 30 (so the page-factor rounding
error is zero: `40 × 0.75 = 30`), NextPage is refused at the end boundary,
and the following PrevPage lands on 50 — a full 30 lines below the original
80, not within any rounding error of it. -/
theorem nextPage_prevPage_undershoot :
    pageOff (⟨80, 100, 40, 0, 0, false⟩ : ReaderState).winHeight = 30 ∧
      (step .prevPage (step .nextPage (⟨80, 100, 40, 0, 0, false⟩ : ReaderState))).currentLine
        = 50 ∧
      (50 : Int) < 80 - 1 := by
  decide

/-- C3, amended: for every start state with `0 ≤ currentLine` and a
non-negative window height, NextPage followed immediately by PrevPage yields
an offset ≥ the original minus the full page offset `round(winHeight × 0.75)`
(the shortfall when NextPage is refused at the end boundary), and exact
equality holds whenever NextPage is not clamped by the file boundary — in
particular when neither move is clamped. -/
theorem nextPage_prevPage_bound (s : ReaderState)
    (h0 : 0 ≤ s.currentLine) (hw : 0 ≤ s.winHeight) :
    s.currentLine - pageOff s.winHeight ≤
        (step .prevPage (step .nextPage s)).currentLine ∧
      (s.currentLine + pageOff s.winHeight < s.totalLine →
        (step .prevPage (step .nextPage s)).currentLine = s.currentLine) := by
  have hpo : 0 ≤ pageOff s.winHeight := by unfold pageOff; omega
  have e2 := step_nextPage_currentLine s
  have e1 := step_prevPage_currentLine (step .nextPage s)
  rw [step_winHeight] at e1
  rw [e2] at e1
  rw [e1]
  constructor
  · split_ifs <;> omega
  · intro hlt
    split_ifs <;> omega

/-- C3, witness for `nextPage_prevPage_bound` at a state where neither move
is clamped. -/
theorem nextPage_prevPage_bound_witness :
    (⟨40, 1000, 40, 0, 0, false⟩ : ReaderState).currentLine -
        pageOff (⟨40, 1000, 40, 0, 0, false⟩ : ReaderState).winHeight ≤
        (step .prevPage (step .nextPage (⟨40, 1000, 40, 0, 0, false⟩ : ReaderState))).currentLine ∧
      ((⟨40, 1000, 40, 0, 0, false⟩ : ReaderState).currentLine +
          pageOff (⟨40, 1000, 40, 0, 0, false⟩ : ReaderState).winHeight <
          (⟨40, 1000, 40, 0, 0, false⟩ : ReaderState).totalLine →
        (step .prevPage (step .nextPage (⟨40, 1000, 40, 0, 0, false⟩ : ReaderState))).currentLine =
          (⟨40, 1000, 40, 0, 0, false⟩ : ReaderState).currentLine) :=
  nextPage_prevPage_bound ⟨40, 1000, 40, 0, 0, false⟩ (by decide) (by decide)

/-- C4: the page-jump offset equals `round(winHeight × 0.75)` (stated over ℚ
against Mathlib's `round`, which agrees with Go's half-away-from-zero
rounding on non-negative input), the half-page advance adds
`winHeight / 2` with integer division, and from `currentLine = 0`,
`winHeight = 40` on a 1000-line file the sequence NextPage, NextPage,
PrevPage, NextHalfPage visits offsets 30, 60, 30, 50. -/
theorem page_offsets_and_trace :
    (∀ n : ℕ, pageOff (n : ℤ) = round ((n : ℚ) * (3 / 4))) ∧
      (∀ s : ReaderState, s.currentLine + s.winHeight - 1 < s.totalLine →
        (step .nextHalfPage s).currentLine = s.currentLine + s.winHeight / 2) ∧
      (step .nextPage (⟨0, 1000, 40, 0, 0, false⟩ : ReaderState)).currentLine = 30 ∧
      (step .nextPage (step .nextPage (⟨0, 1000, 40, 0, 0, false⟩ : ReaderState))).currentLine
        = 60 ∧
      (step .prevPage (step .nextPage
          (step .nextPage (⟨0, 1000, 40, 0, 0, false⟩ : ReaderState)))).currentLine = 30 ∧
      (step .nextHalfPage (step .prevPage (step .nextPage
          (step .nextPage (⟨0, 1000, 40, 0, 0, false⟩ : ReaderState))))).currentLine = 50 := by
  refine ⟨?_, ?_, by decide, by decide, by decide, by decide⟩
  · intro n
    unfold pageOff
    rw [round_eq]
    have h : (n : ℚ) * (3 / 4) + 1 / 2 = ((3 * (n : ℤ) + 2 : ℤ) : ℚ) / ((4 : ℕ) : ℚ) := by
      push_cast; ring
    rw [h, Rat.floor_intCast_div_natCast]
    norm_num
  · intro s hfit
    rw [step_nextHalfPage_currentLine]
    split_ifs
    rfl

/-- C4, witness for `page_offsets_and_trace` at `winHeight = 40` and at a
concrete state where the half page fits. -/
theorem page_offsets_and_trace_witness :
    pageOff ((40 : ℕ) : ℤ) = round (((40 : ℕ) : ℚ) * (3 / 4)) ∧
      (step .nextHalfPage (⟨30, 1000, 40, 0, 0, false⟩ : ReaderState)).currentLine =
        (⟨30, 1000, 40, 0, 0, false⟩ : ReaderState).currentLine +
          (⟨30, 1000, 40, 0, 0, false⟩ : ReaderState).winHeight / 2 :=
  ⟨page_offsets_and_trace.1 40,
    page_offsets_and_trace.2.1 ⟨30, 1000, 40, 0, 0, false⟩ (by decide)⟩

/-- C5: NextHalfPage advances `currentLine` by `winHeight / 2` exactly when
the full next page fits (`currentLine + winHeight - 1 < totalLines`), and
otherwise leaves `currentLine` unchanged — the advance is refused, never
partially applied. -/
theorem nextHalfPage_guarded (s : ReaderState) :
    (s.currentLine + s.winHeight - 1 < s.totalLine →
      (step .nextHalfPage s).currentLine = s.currentLine + s.winHeight / 2) ∧
    (¬ s.currentLine + s.winHeight - 1 < s.totalLine →
      (step .nextHalfPage s).currentLine = s.currentLine) := by
  have e := step_nextHalfPage_currentLine s
  constructor <;> intro h <;> rw [e] <;> split_ifs <;> rfl

/-- C5, witness for `nextHalfPage_guarded`: both branches exercised at
concrete states (half page fits at offset 30 of 1000 lines; refused at
offset 990). -/
theorem nextHalfPage_guarded_witness :
    (step .nextHalfPage (⟨30, 1000, 40, 0, 0, false⟩ : ReaderState)).currentLine =
        (⟨30, 1000, 40, 0, 0, false⟩ : ReaderState).currentLine +
          (⟨30, 1000, 40, 0, 0, false⟩ : ReaderState).winHeight / 2 ∧
      (step .nextHalfPage (⟨990, 1000, 40, 0, 0, false⟩ : ReaderState)).currentLine =
        (⟨990, 1000, 40, 0, 0, false⟩ : ReaderState).currentLine :=
  ⟨(nextHalfPage_guarded ⟨30, 1000, 40, 0, 0, false⟩).1 (by decide),
    (nextHalfPage_guarded ⟨990, 1000, 40, 0, 0, false⟩).2 (by decide)⟩

/-- Updating a key in the record then looking it up gives the new value. -/
theorem lookupPath_setPath_self (l : List (String × Int)) (p : String) (v : Int) :
    lookupPath (setPath l p v) p = some v := by
  induction l with
  | nil => simp [setPath, lookupPath]
  | cons kv rest ih =>
      by_cases h : kv.1 = p
      · simp [setPath, lookupPath, h]
      · simp [setPath, lookupPath, h, ih]

/-- Updating a key in the record leaves every other key's entry unchanged. -/
theorem lookupPath_setPath_ne (l : List (String × Int)) (p q : String) (v : Int)
    (hne : q ≠ p) :
    lookupPath (setPath l p v) q = lookupPath l q := by
  induction l with
  | nil => simp [setPath, lookupPath, Ne.symm hne]
  | cons kv rest ih =>
      by_cases h : kv.1 = p
      · simp [setPath, lookupPath, h, Ne.symm hne]
      · simp [setPath, lookupPath, h, ih]

/-- C6: saving then reloading yields the very offset the session had, and the
whole record is written, so every other path's on-disk entry is preserved.
The hypotheses are the session facts that hold at every call of
`saveProgress`: the disk holds the last serialized record (`hd`), the
in-memory record agrees with the disk on every other path — only the current
file's entry is ever updated in memory (`hframe`) — and when nothing was
navigated (`previousSavedLine = currentLine`) the disk already stores the
current offset, or stores nothing and the session is at the initial offset 0
(`hsync`). -/
theorem saveProgress_roundtrip_frame (st : SaveState) (dl : List (String × Int))
    (hd : st.disk = some (.valid dl))
    (hframe : ∀ p, p ≠ st.f → lookupPath dl p = lookupPath st.progress p)
    (hsync : st.previousSavedLine = st.currentLine →
      lookupPath dl st.f = some st.currentLine ∨
        (lookupPath dl st.f = none ∧ st.currentLine = 0)) :
    ∃ dl2, (saveProgress st).disk = some (.valid dl2) ∧
      (∃ r, loadProgress st.f 0 0 (some (.valid dl2)) = .ok r ∧
        r.currentLine = st.currentLine) ∧
      (∀ p, p ≠ st.f → lookupPath dl2 p = lookupPath dl p) := by
  by_cases heq : st.previousSavedLine = st.currentLine
  · refine ⟨dl, ?_, ?_, fun p _ => rfl⟩
    · simp [saveProgress, heq, hd]
    · rcases hsync heq with hl | ⟨hl, hz⟩
      · exact ⟨⟨some (.valid dl), dl, st.currentLine, st.currentLine⟩,
          by simp [loadProgress, unmarshal, hl], rfl⟩
      · exact ⟨⟨some (.valid dl), dl, 0, 0⟩,
          by simp [loadProgress, unmarshal, hl], hz.symm⟩
  · refine ⟨setPath st.progress st.f st.currentLine, ?_, ?_, ?_⟩
    · simp [saveProgress, heq]
    · exact ⟨⟨some (.valid (setPath st.progress st.f st.currentLine)),
          setPath st.progress st.f st.currentLine, st.currentLine, st.currentLine⟩,
        by simp [loadProgress, unmarshal, lookupPath_setPath_self], rfl⟩
    · intro p hp
      rw [lookupPath_setPath_ne _ _ _ _ hp, hframe p hp]

/-- C6, witness for `saveProgress_roundtrip_frame`: saving offset 5 for
`/a` over a disk holding only an entry for `/b`. -/
theorem saveProgress_roundtrip_frame_witness :
    ∃ dl2,
      (saveProgress ⟨"/a", 0, 5, [("/b", 7)], some (.valid [("/b", 7)])⟩).disk =
          some (.valid dl2) ∧
        (∃ r, loadProgress "/a" 0 0 (some (.valid dl2)) = .ok r ∧
          r.currentLine = 5) ∧
        (∀ p, p ≠ "/a" → lookupPath dl2 p = lookupPath [("/b", 7)] p) :=
  saveProgress_roundtrip_frame ⟨"/a", 0, 5, [("/b", 7)], some (.valid [("/b", 7)])⟩
    [("/b", 7)] rfl (fun _ _ => rfl) (fun h => absurd h (by decide))

/-- C7: when the new offset equals the last persisted one, `saveProgress`
returns before touching anything — the whole save state (in-memory record,
dedup marker and disk alike) is exactly unchanged. -/
theorem saveProgress_skip_noop (st : SaveState)
    (h : st.previousSavedLine = st.currentLine) :
    saveProgress st = st := by
  simp [saveProgress, h]

/-- C7, witness for `saveProgress_skip_noop` at a concrete state already
saved at offset 5. -/
theorem saveProgress_skip_noop_witness :
    saveProgress ⟨"/a", 5, 5, [("/a", 5)], some (.valid [("/a", 5)])⟩ =
      ⟨"/a", 5, 5, [("/a", 5)], some (.valid [("/a", 5)])⟩ :=
  saveProgress_skip_noop ⟨"/a", 5, 5, [("/a", 5)], some (.valid [("/a", 5)])⟩ rfl

/-- C8: when the on-disk progress file exists but is not valid JSON,
`loadProgress` returns the unmarshal error and `Run` propagates it, so
startup yields an error and never an ok state; and loading never rewrites an
existing file — the `{}` creation happens only when the file is absent — so
the prior contents are neither discarded nor replaced by an empty record. -/
theorem corrupt_progress_fatal (f : String) (totalLine : Int) :
    runInit f totalLine (some .invalid) = .error "invalid character" ∧
      (∀ r, runInit f totalLine (some .invalid) ≠ .ok r) ∧
      (∀ d r, loadProgress f 0 0 (some d) = .ok r → r.disk = some d) := by
  refine ⟨rfl, ?_, ?_⟩
  · intro r h
    simp [runInit, loadProgress, unmarshal] at h
  · intro d r h
    cases d with
    | invalid => simp [loadProgress, unmarshal] at h
    | valid l =>
        cases hl : lookupPath l f <;> simp [loadProgress, unmarshal, hl] at h <;>
          simp [← h]

/-- C8, witness for `corrupt_progress_fatal`: a corrupt file under path
`/b` is fatal, and a successful load of a valid file keeps its contents. -/
theorem corrupt_progress_fatal_witness :
    runInit "/b" 42 (some .invalid) = .error "invalid character" ∧
      (⟨some (.valid [("/b", 3)]), [("/b", 3)], 3, 3⟩ : LoadResult).disk =
        some (.valid [("/b", 3)]) :=
  ⟨(corrupt_progress_fatal "/b" 42).1,
    (corrupt_progress_fatal "/b" 42).2.2 (.valid [("/b", 3)])
      ⟨some (.valid [("/b", 3)]), [("/b", 3)], 3, 3⟩
      (by simp [loadProgress, unmarshal, lookupPath])⟩

/-- C9: the input decoder emits exactly the binding table — `q`, Ctrl-C and
Ctrl-D give Exit, `a` gives ToggleScrollMode, Enter gives NextLine, Space
gives NextHalfPage, and `ESC [ A/B/C/D` give PrevLine/NextLine/NextPage/
PrevPage — every other 3-byte buffer (malformed or partial escape sequences
included) produces no command, and a read error produces no command so the
read loop just retries. -/
theorem decode_matches_bindings :
    (∀ b1 b2, decode 0x03 b1 b2 = some .exit) ∧
      (∀ b1 b2, decode 0x04 b1 b2 = some .exit) ∧
      (∀ b1 b2, decode 113 b1 b2 = some .exit) ∧
      (∀ b1 b2, decode 97 b1 b2 = some .switchScrolling) ∧
      (∀ b1 b2, decode 0x0d b1 b2 = some .nextLine) ∧
      (∀ b1 b2, decode 32 b1 b2 = some .nextHalfPage) ∧
      decode 0x1b 0x5b 0x41 = some .prevLine ∧
      decode 0x1b 0x5b 0x42 = some .nextLine ∧
      decode 0x1b 0x5b 0x43 = some .nextPage ∧
      decode 0x1b 0x5b 0x44 = some .prevPage ∧
      (∀ b0 b1 b2,
        ¬(b0 = 3 ∨ b0 = 4 ∨ b0 = 113 ∨ b0 = 97 ∨ b0 = 13 ∨ b0 = 32 ∨ b0 = 27) →
        decode b0 b1 b2 = none) ∧
      (∀ b1 b2, b1 ≠ 0x5b → decode 0x1b b1 b2 = none) ∧
      (∀ b2, ¬(b2 = 65 ∨ b2 = 66 ∨ b2 = 67 ∨ b2 = 68) → decode 0x1b 0x5b b2 = none) ∧
      (∀ e, readEvent (.error e) = none) ∧
      (∀ b0 b1 b2, readEvent (.ok (b0, b1, b2)) = decode b0 b1 b2) := by
  refine ⟨fun _ _ => rfl, fun _ _ => rfl, fun _ _ => rfl, fun _ _ => rfl,
    fun _ _ => rfl, fun _ _ => rfl, rfl, rfl, rfl, rfl, ?_, ?_, ?_,
    fun _ => rfl, fun _ _ _ => rfl⟩
  · intro b0 b1 b2 h
    push_neg at h
    obtain ⟨h3, h4, hq, ha, he, hs, hesc⟩ := h
    simp [decode, h3, h4, hq, ha, he, hs, hesc]
  · intro b1 b2 h
    simp [decode, h]
  · intro b2 h
    push_neg at h
    obtain ⟨hA, hB, hC, hD⟩ := h
    simp [decode, hA, hB, hC, hD]

/-- C9, witness for `decode_matches_bindings`: the letter `x`, a broken
escape sequence, and an unknown CSI final byte all decode to nothing. -/
theorem decode_matches_bindings_witness :
    decode 120 9 9 = none ∧ decode 0x1b 0 65 = none ∧ decode 0x1b 0x5b 90 = none :=
  ⟨decode_matches_bindings.2.2.2.2.2.2.2.2.2.2.1 120 9 9 (by decide),
    decode_matches_bindings.2.2.2.2.2.2.2.2.2.2.2.1 0 65 (by decide),
    decode_matches_bindings.2.2.2.2.2.2.2.2.2.2.2.2.1 90 (by decide)⟩

/-- C10: at startup the saved offset loaded for the current file is reset to
0 only when strictly greater than `totalLine`; a saved offset exactly equal
to `totalLine` is kept unchanged, so a session can begin with
`currentLine = totalLines`, outside the documented range
`currentLine < totalLines`. -/
theorem startup_keeps_saved_totalLine (f : String) (T pos : Int)
    (dl : List (String × Int)) (hl : lookupPath dl f = some pos) :
    ∃ r, runInit f T (some (.valid dl)) = .ok r ∧
      (T < pos → r.currentLine = 0) ∧
      (pos ≤ T → r.currentLine = pos) ∧
      (pos = T → r.currentLine = T ∧ ¬ r.currentLine < T) := by
  refine ⟨⟨some (.valid dl), dl, if pos > T then 0 else pos, pos⟩, ?_, ?_, ?_, ?_⟩
  · simp [runInit, loadProgress, unmarshal, hl]
  · intro h
    simp only [gt_iff_lt]
    rw [if_pos h]
  · intro h
    simp only [gt_iff_lt]
    rw [if_neg (by omega)]
  · intro h
    subst h
    simp only [gt_iff_lt]
    rw [if_neg (by omega)]
    omega

/-- C10, witness for `startup_keeps_saved_totalLine`: a saved offset of 10 on
a 10-line file survives startup exactly, landing outside
`currentLine < totalLines`. -/
theorem startup_keeps_saved_totalLine_witness :
    ∃ r, runInit "/a" 10 (some (.valid [("/a", 10)])) = .ok r ∧
      ((10 : Int) < 10 → r.currentLine = 0) ∧
      ((10 : Int) ≤ 10 → r.currentLine = 10) ∧
      ((10 : Int) = 10 → r.currentLine = 10 ∧ ¬ r.currentLine < 10) :=
  startup_keeps_saved_totalLine "/a" 10 10 [("/a", 10)] (by decide)
